import Mathlib

/-!
# Verification of the in-memory fake schema registry

Shallow embedding of `pkg/web/ui/handler.go` (package `schemaregistry`):
the `fakeRegistry` store (record list, fingerprint→id cache, id sequence
counter) and the `fakeServer` request handlers, together with proofs of the
specification's claims about identifier/version assignment, lookups and
wire-level error mapping.

Modelling conventions:
* Go `int` is modelled as `Int` (the id sequence would wrap only after 2^63
  registrations, far beyond any state reachable in the store's lifetime).
* The fingerprint function `internal.Rabin` is outside this repository's
  sources; the spec treats it as an opaque pure function on the content
  bytes, so every definition is parameterised by `fp : String → Nat`.
* Go's `map[uint64]int` is modelled as `Nat → Option Int`, with map
  assignment as pointwise function update (exactly Go map semantics).
* The `sync.Mutex` / `sync.Once` machinery serialises operations; the
  embedding models the serialised (sequential) semantics directly, with
  mutation as explicit state passing.  `init` turns the nil collections
  into empty ones, so the initial state is the empty store.
-/

/-- `sr.Schema`: opaque content string plus a type tag. The fingerprint is
computed from the content string only. -/
structure Schema where
  schema : String
  stype : Int
deriving DecidableEq, Repr

/-- `sr.SubjectSchema`: the stored record. -/
structure SubjectSchema where
  subject : String
  version : Int
  id : Int
  schema : Schema
deriving DecidableEq, Repr

/-- `fakeRegistry`: the in-memory store state (after `init`). -/
structure fakeRegistry where
  schemas : List SubjectSchema
  fingerprintIDCache : Nat → Option Int
  idSequence : Int

/-- The store state right after lazy initialization: empty collections,
id sequence at zero. -/
def initRegistry : fakeRegistry :=
  { schemas := [], fingerprintIDCache := fun _ => none, idSequence := 0 }

/-- The loop of `findBySubject`, over an explicit record list. -/
def findBySubjectL (subject : String) : List SubjectSchema → List SubjectSchema
  | [] => []
  | ss :: rest =>
    if ss.subject = subject then ss :: findBySubjectL subject rest
    else findBySubjectL subject rest

/-- The loop of `findOneByID`: first record whose id matches. -/
def findOneByIDL (id : Int) : List SubjectSchema → Option Schema
  | [] => none
  | ss :: rest => if ss.id = id then some ss.schema else findOneByIDL id rest

/-- The loop of `findAllByID`: all records whose id matches, in order. -/
def findAllByIDL (id : Int) : List SubjectSchema → List SubjectSchema
  | [] => []
  | ss :: rest =>
    if ss.id = id then ss :: findAllByIDL id rest else findAllByIDL id rest

/-- The loop of `findBySubjectID`: first record matching subject and id. -/
def findBySubjectIDL (subject : String) (id : Int) :
    List SubjectSchema → Option SubjectSchema
  | [] => none
  | ss :: rest =>
    if ss.subject = subject ∧ ss.id = id then some ss
    else findBySubjectIDL subject id rest

/-- The loop of `findBySubjectVersion`: first record matching subject and
version. -/
def findBySubjectVersionL (subject : String) (version : Int) :
    List SubjectSchema → Option SubjectSchema
  | [] => none
  | ss :: rest =>
    if ss.subject = subject ∧ ss.version = version then some ss
    else findBySubjectVersionL subject version rest

/-- `fakeRegistry.findBySubject`. -/
def fakeRegistry.findBySubject (fr : fakeRegistry) (subject : String) :
    List SubjectSchema :=
  findBySubjectL subject fr.schemas

/-- `fakeRegistry.findOneByID`. -/
def fakeRegistry.findOneByID (fr : fakeRegistry) (id : Int) : Option Schema :=
  findOneByIDL id fr.schemas

/-- `fakeRegistry.findAllByID`. -/
def fakeRegistry.findAllByID (fr : fakeRegistry) (id : Int) :
    List SubjectSchema :=
  findAllByIDL id fr.schemas

/-- `fakeRegistry.findBySubjectID`. -/
def fakeRegistry.findBySubjectID (fr : fakeRegistry) (subject : String)
    (id : Int) : Option SubjectSchema :=
  findBySubjectIDL subject id fr.schemas

/-- `fakeRegistry.findBySubjectVersion`. -/
def fakeRegistry.findBySubjectVersion (fr : fakeRegistry) (subject : String)
    (version : Int) : Option SubjectSchema :=
  findBySubjectVersionL subject version fr.schemas

/-- `fakeRegistry.nextVersion`: count of existing records for the subject,
plus one. -/
def fakeRegistry.nextVersion (fr : fakeRegistry) (subject : String) : Int :=
  (fr.findBySubject subject).length + 1

/-- `fakeRegistry.nextID`: increment the id sequence and return it. -/
def fakeRegistry.nextID (fr : fakeRegistry) : Int × fakeRegistry :=
  (fr.idSequence + 1, { fr with idSequence := fr.idSequence + 1 })

/-- `fakeRegistry.CreateSchema` (the store mutator behind
`POST /subjects/{subject}/versions`), parameterised by the fingerprint
function `fp`.  Returns the resulting record and the new store state. -/
def fakeRegistry.CreateSchema (fp : String → Nat) (fr : fakeRegistry)
    (subject : String) (schema : Schema) : SubjectSchema × fakeRegistry :=
  match fr.fingerprintIDCache (fp schema.schema) with
  | some id =>
    -- schema exists, see if subject matches
    match fr.findBySubjectID subject id with
    | some ss => (ss, fr)  -- schema exists for this subject, return it
    | none =>
      -- cached id, new subject: append with the next version for the subject
      (⟨subject, fr.nextVersion subject, id, schema⟩,
        { fr with
            schemas := fr.schemas ++ [⟨subject, fr.nextVersion subject, id, schema⟩],
            fingerprintIDCache :=
              fun k => if k = fp schema.schema then some id
                       else fr.fingerprintIDCache k })
  | none =>
    -- schema does not exist yet: nextID increments the id sequence
    (⟨subject, fr.nextVersion subject, fr.idSequence + 1, schema⟩,
      { schemas := fr.schemas ++ [⟨subject, fr.nextVersion subject, fr.idSequence + 1, schema⟩],
        fingerprintIDCache :=
          fun k => if k = fp schema.schema then some (fr.idSequence + 1)
                   else fr.fingerprintIDCache k,
        idSequence := fr.idSequence + 1 })

/-- `fakeRegistry.SchemaByID` (lookup; takes the lock, reads, no mutation). -/
def fakeRegistry.SchemaByID (fr : fakeRegistry) (id : Int) : Option Schema :=
  fr.findOneByID id

/-- `fakeRegistry.SchemaBySubjectVersion`. -/
def fakeRegistry.SchemaBySubjectVersion (fr : fakeRegistry) (subject : String)
    (version : Int) : Option SubjectSchema :=
  fr.findBySubjectVersion subject version

/-- `fakeRegistry.SubjectVersionsByID`. -/
def fakeRegistry.SubjectVersionsByID (fr : fakeRegistry) (id : Int) :
    List SubjectSchema :=
  fr.findAllByID id

/-- Run a sequence of `CreateSchema` calls (subject, schema pairs) against a
starting state; the serialised order of concurrent registrations. -/
def runOps (fp : String → Nat) : fakeRegistry → List (String × Schema) → fakeRegistry
  | fr, [] => fr
  | fr, (s, c) :: rest => runOps fp (fakeRegistry.CreateSchema fp fr s c).2 rest

/-- The records returned by each `CreateSchema` call in a run. -/
def runResults (fp : String → Nat) :
    fakeRegistry → List (String × Schema) → List SubjectSchema
  | _, [] => []
  | fr, (s, c) :: rest =>
    (fakeRegistry.CreateSchema fp fr s c).1 ::
      runResults fp (fakeRegistry.CreateSchema fp fr s c).2 rest

/-! ## Protocol handler (`fakeServer`) -/

/-- `errorCodeSubjectNotFound`. -/
def errorCodeSubjectNotFound : Int := 40401

/-- `errorCodeSchemaNotFound`. -/
def errorCodeSchemaNotFound : Int := 40403

/-- Value of a list of decimal digit characters; `none` when a non-digit
character appears.  Mirrors the digit loop of Go `strconv.Atoi`. -/
def digitsVal : List Char → Nat → Option Nat
  | [], acc => some acc
  | c :: cs, acc =>
    if '0' ≤ c ∧ c ≤ '9' then digitsVal cs (acc * 10 + (c.toNat - 48))
    else none

/-- Core of `strconv.Atoi` after the sign character has been stripped:
needs at least one digit, all characters digits, and the value must fit in
a 64-bit signed integer (out-of-range input is an error in Go). -/
def atoiCore (cs : List Char) (neg : Bool) : Option Int :=
  match cs with
  | [] => none
  | _ =>
    match digitsVal cs 0 with
    | none => none
    | some n =>
      if neg then if n ≤ 2 ^ 63 then some (-(n : Int)) else none
      else if n ≤ 2 ^ 63 - 1 then some (n : Int) else none

/-- Go `strconv.Atoi`: optional sign, decimal digits, 64-bit range. -/
def atoi (s : String) : Option Int :=
  match s.data with
  | '+' :: rest => atoiCore rest false
  | '-' :: rest => atoiCore rest true
  | cs => atoiCore cs false

/-- A response body: a JSON success payload (including the JSON `null`
that Go's `json.Marshal` produces for a nil slice), or the error object
with fields error_code and message. -/
inductive RespBody where
  | schemaBody (s : Schema)
  | recordBody (ss : SubjectSchema)
  | recordsBody (l : List SubjectSchema)
  | nullBody
  | idBody (id : Int)
  | errorBody (code : Int) (message : String)
deriving DecidableEq, Repr

/-- An HTTP response: status code and JSON body. -/
structure Response where
  status : Nat
  body : RespBody
deriving DecidableEq, Repr

/-- `fakeServer.errorWithCode`: status plus the error object. -/
def fakeServer.errorWithCode (status : Nat) (code : Int) (message : String) :
    Response :=
  { status := status, body := RespBody.errorBody code message }

/-- `fakeServer.error`: generic internal failure, error code 50001. -/
def fakeServer.errorResp (status : Nat) (message : String) : Response :=
  fakeServer.errorWithCode status 50001 message

/-- `fakeServer.schemaBySubjectVersion`, handler of
`GET /subjects/{subject}/versions/{version}`; `subjectTok` and `versionTok`
are path tokens 2 and 4. -/
def fakeServer.schemaBySubjectVersion (fr : fakeRegistry)
    (subjectTok versionTok : String) : Response :=
  match atoi versionTok with
  | none => fakeServer.errorResp 500 "invalid schema version"
  | some version =>
    match fr.SchemaBySubjectVersion subjectTok version with
    | none => fakeServer.errorWithCode 404 errorCodeSubjectNotFound "subject not found"
    | some ss => { status := 200, body := RespBody.recordBody ss }

/-- `fakeServer.schemaByID`, handler of `GET /schemas/ids/{id}`; `idTok` is
path token 3. -/
def fakeServer.schemaByID (fr : fakeRegistry) (idTok : String) : Response :=
  match atoi idTok with
  | none => fakeServer.errorResp 500 "invalid schema ID"
  | some id =>
    match fr.SchemaByID id with
    | none => fakeServer.errorWithCode 404 errorCodeSchemaNotFound "schema not found"
    | some s => { status := 200, body := RespBody.schemaBody s }

/-- `json.Marshal` applied to the record slice handed to `fs.json`:
`findAllByID` builds its result from `var sss []sr.SubjectSchema` by
appending on each match, so the slice is nil exactly when no record
matched, and Go marshals a nil slice as JSON `null` (and a non-nil slice
as a JSON array). -/
def marshalRecords (l : List SubjectSchema) : RespBody :=
  if l.isEmpty then RespBody.nullBody else RespBody.recordsBody l

/-- `fakeServer.subjectVersionsByID`, handler of
`GET /schemas/ids/{id}/versions`; `idTok` is path token 3.  The body is
the marshalled record slice (JSON `null` when the slice is nil). -/
def fakeServer.subjectVersionsByID (fr : fakeRegistry) (idTok : String) :
    Response :=
  match atoi idTok with
  | none => fakeServer.errorResp 500 "invalid schema ID"
  | some id => { status := 200, body := marshalRecords (fr.SubjectVersionsByID id) }

/-- `fakeServer.createSchema`, handler of `POST /subjects/{subject}/versions`;
`subjectTok` is path token 2 and `body` the result of decoding the request
body as a Schema (`none` on decode failure). -/
def fakeServer.createSchema (fp : String → Nat) (fr : fakeRegistry)
    (subjectTok : String) (body : Option Schema) : Response × fakeRegistry :=
  match body with
  | none => (fakeServer.errorResp 500 "decode error", fr)
  | some s =>
    let r := fr.CreateSchema fp subjectTok s
    ({ status := 200, body := RespBody.idBody r.1.id }, r.2)

/-- Invariants of every reachable store state: the id sequence is
nonnegative, each subject's records carry exactly the versions 1..k in
insertion order, every cached id is positive and at most the sequence
counter, the fingerprint cache is injective, and every stored record's
content fingerprint is cached and maps to the record's id. -/
structure RegInv (fp : String → Nat) (fr : fakeRegistry) : Prop where
  seq_nonneg : 0 ≤ fr.idSequence
  versions_ok : ∀ s, (fr.findBySubject s).map (fun ss => ss.version) =
      (List.range' 1 (fr.findBySubject s).length).map Int.ofNat
  cache_bounds : ∀ k v, fr.fingerprintIDCache k = some v →
      1 ≤ v ∧ v ≤ fr.idSequence
  cache_inj : ∀ k₁ k₂ v, fr.fingerprintIDCache k₁ = some v →
      fr.fingerprintIDCache k₂ = some v → k₁ = k₂
  rec_cache : ∀ ss ∈ fr.schemas,
      fr.fingerprintIDCache (fp ss.schema.schema) = some ss.id

/-! ## Basic lemmas about the list-level finders -/

lemma findBySubjectL_eq_filter (s : String) (l : List SubjectSchema) :
    findBySubjectL s l = l.filter (fun ss => ss.subject == s) := by
  induction l with
  | nil => rfl
  | cons ss rest ih =>
    by_cases h : ss.subject = s
    · have hb : (ss.subject == s) = true := beq_iff_eq.mpr h
      simp [findBySubjectL, List.filter_cons, h, hb, ih]
    · have hb : (ss.subject == s) = false := beq_eq_false_iff_ne.mpr h
      simp [findBySubjectL, List.filter_cons, h, hb, ih]

lemma findBySubjectL_append (s : String) (l₁ l₂ : List SubjectSchema) :
    findBySubjectL s (l₁ ++ l₂) = findBySubjectL s l₁ ++ findBySubjectL s l₂ := by
  simp [findBySubjectL_eq_filter, List.filter_append]

lemma findBySubjectL_singleton (s : String) (r : SubjectSchema) :
    findBySubjectL s [r] = if r.subject = s then [r] else [] := by
  by_cases h : r.subject = s <;> simp [findBySubjectL, h]

lemma mem_findBySubjectL (s : String) (l : List SubjectSchema)
    (x : SubjectSchema) : x ∈ findBySubjectL s l ↔ x ∈ l ∧ x.subject = s := by
  rw [findBySubjectL_eq_filter, List.mem_filter]
  simp

lemma findBySubjectIDL_some (s : String) (id : Int) (l : List SubjectSchema)
    (ss : SubjectSchema) (h : findBySubjectIDL s id l = some ss) :
    ss ∈ l ∧ ss.subject = s ∧ ss.id = id := by
  induction l with
  | nil => simp [findBySubjectIDL] at h
  | cons a rest ih =>
    by_cases hc : a.subject = s ∧ a.id = id
    · simp only [findBySubjectIDL, if_pos hc, Option.some.injEq] at h
      subst h
      exact ⟨List.mem_cons_self a rest, hc⟩
    · simp only [findBySubjectIDL, if_neg hc] at h
      obtain ⟨h1, h2, h3⟩ := ih h
      exact ⟨List.mem_cons_of_mem a h1, h2, h3⟩

lemma findBySubjectVersionL_eq_some (s : String) (v : Int)
    (l : List SubjectSchema) (r : SubjectSchema) (hmem : r ∈ l)
    (hs : r.subject = s) (hv : r.version = v)
    (huniq : ∀ x ∈ l, x.subject = s → x.version = v → x = r) :
    findBySubjectVersionL s v l = some r := by
  induction l with
  | nil => cases hmem
  | cons a rest ih =>
    by_cases hc : a.subject = s ∧ a.version = v
    · have ha : a = r := huniq a (List.mem_cons_self a rest) hc.1 hc.2
      simp only [findBySubjectVersionL]
      rw [if_pos hc, ha]
    · have hr : r ∈ rest := by
        rcases List.mem_cons.mp hmem with h | h
        · exact absurd ⟨h ▸ hs, h ▸ hv⟩ hc
        · exact h
      rw [findBySubjectVersionL, if_neg hc]
      exact ih hr (fun x hx => huniq x (List.mem_cons_of_mem a hx))

lemma findOneByIDL_of_mem (id : Int) (l : List SubjectSchema)
    (r : SubjectSchema) (hmem : r ∈ l) (hid : r.id = id) :
    ∃ ss₀, ss₀ ∈ l ∧ ss₀.id = id ∧ findOneByIDL id l = some ss₀.schema := by
  induction l with
  | nil => cases hmem
  | cons a rest ih =>
    by_cases hc : a.id = id
    · exact ⟨a, List.mem_cons_self a rest, hc, by simp [findOneByIDL, hc]⟩
    · have hr : r ∈ rest := by
        rcases List.mem_cons.mp hmem with h | h
        · exact absurd (h ▸ hid) hc
        · exact h
      obtain ⟨ss₀, h1, h2, h3⟩ := ih hr
      exact ⟨ss₀, List.mem_cons_of_mem a h1, h2, by simp [findOneByIDL, hc, h3]⟩

lemma findAllByIDL_eq_filter (id : Int) (l : List SubjectSchema) :
    findAllByIDL id l = l.filter (fun ss => ss.id == id) := by
  induction l with
  | nil => rfl
  | cons ss rest ih =>
    simp only [findAllByIDL, List.filter_cons]
    by_cases h : ss.id = id
    · simp [h, ih]
    · simp [h, ih]

lemma findOneByIDL_eq_find? (id : Int) (l : List SubjectSchema) :
    findOneByIDL id l = (l.find? (fun ss => ss.id == id)).map (·.schema) := by
  induction l with
  | nil => rfl
  | cons ss rest ih =>
    by_cases h : ss.id = id
    · have hb : (ss.id == id) = true := beq_iff_eq.mpr h
      simp [findOneByIDL, List.find?_cons, h, hb]
    · have hb : (ss.id == id) = false := beq_eq_false_iff_ne.mpr h
      simp [findOneByIDL, List.find?_cons, h, hb, ih]

/-! ## Case analysis of `CreateSchema` -/

/-- `CreateSchema` either returns an existing record for the subject
unchanged (idempotent path), or appends exactly one record for the subject
whose version is the subject's record count plus one and whose id is the
cached id (cache hit) or the incremented sequence value (cache miss). -/
lemma createSchema_cases (fp : String → Nat) (fr : fakeRegistry) (s : String)
    (c : Schema) (r : SubjectSchema) (fr' : fakeRegistry)
    (h : fr.CreateSchema fp s c = (r, fr')) :
    (fr' = fr ∧ r ∈ fr.schemas ∧ r.subject = s ∧
      fr.fingerprintIDCache (fp c.schema) = some r.id)
    ∨ (r.subject = s ∧ r.schema = c ∧
       r.version = ((fr.findBySubject s).length : Int) + 1 ∧
       fr'.schemas = fr.schemas ++ [r] ∧
       (∀ k, fr'.fingerprintIDCache k =
         if k = fp c.schema then some r.id else fr.fingerprintIDCache k) ∧
       ((fr.fingerprintIDCache (fp c.schema) = some r.id ∧
          fr'.idSequence = fr.idSequence) ∨
        (fr.fingerprintIDCache (fp c.schema) = none ∧
          r.id = fr.idSequence + 1 ∧ fr'.idSequence = fr.idSequence + 1))) := by
  unfold fakeRegistry.CreateSchema at h
  cases hc : fr.fingerprintIDCache (fp c.schema) with
  | some id =>
    simp only [hc] at h
    cases hf : fr.findBySubjectID s id with
    | some ss =>
      simp only [hf] at h
      rw [Prod.mk.injEq] at h
      obtain ⟨h1, h2⟩ := h
      obtain ⟨hmem, hsub, hid⟩ :=
        findBySubjectIDL_some s id fr.schemas ss hf
      subst h1
      exact Or.inl ⟨h2.symm, hmem, hsub, by rw [hid]⟩
    | none =>
      simp only [hf] at h
      rw [Prod.mk.injEq] at h
      obtain ⟨h1, h2⟩ := h
      subst h1
      subst h2
      exact Or.inr ⟨rfl, rfl, rfl, rfl, fun k => rfl, Or.inl ⟨rfl, rfl⟩⟩
  | none =>
    simp only [hc] at h
    rw [Prod.mk.injEq] at h
    obtain ⟨h1, h2⟩ := h
    subst h1
    subst h2
    exact Or.inr ⟨rfl, rfl, rfl, rfl, fun k => rfl, Or.inr ⟨rfl, rfl, rfl⟩⟩

/-- A fingerprint cache entry, once present, survives a `CreateSchema`
call with the same value. -/
lemma createSchema_cache_mono (fp : String → Nat) (fr : fakeRegistry)
    (s : String) (c : Schema) (r : SubjectSchema) (fr' : fakeRegistry)
    (h : fr.CreateSchema fp s c = (r, fr')) (k : Nat) (v : Int)
    (hk : fr.fingerprintIDCache k = some v) :
    fr'.fingerprintIDCache k = some v := by
  rcases createSchema_cases fp fr s c r fr' h with
    ⟨hfr, _, _, _⟩ | ⟨_, _, _, _, hcache, hseq⟩
  · rw [hfr]; exact hk
  · rw [hcache k]
    by_cases hkc : k = fp c.schema
    · subst hkc
      rcases hseq with ⟨hhit, _⟩ | ⟨hmiss, _, _⟩
      · rw [hhit] at hk
        rw [if_pos rfl, hk]
      · rw [hmiss] at hk
        cases hk
    · rw [if_neg hkc]
      exact hk

/-- After `CreateSchema`, the content's fingerprint maps to the returned
record's id. -/
lemma createSchema_cache_self (fp : String → Nat) (fr : fakeRegistry)
    (s : String) (c : Schema) (r : SubjectSchema) (fr' : fakeRegistry)
    (h : fr.CreateSchema fp s c = (r, fr')) :
    fr'.fingerprintIDCache (fp c.schema) = some r.id := by
  rcases createSchema_cases fp fr s c r fr' h with
    ⟨hfr, _, _, hhit⟩ | ⟨_, _, _, _, hcache, _⟩
  · rw [hfr]; exact hhit
  · rw [hcache (fp c.schema), if_pos rfl]

/-- Cache entries survive a whole run of registrations. -/
lemma runOps_cache_mono (fp : String → Nat) (ops : List (String × Schema)) :
    ∀ (fr : fakeRegistry) (k : Nat) (v : Int),
      fr.fingerprintIDCache k = some v →
      (runOps fp fr ops).fingerprintIDCache k = some v := by
  induction ops with
  | nil => intro fr k v hk; exact hk
  | cons op rest ih =>
    intro fr k v hk
    obtain ⟨s, c⟩ := op
    exact ih _ k v (createSchema_cache_mono fp fr s c _ _ rfl k v hk)

lemma runOps_append (fp : String → Nat) (ops more : List (String × Schema)) :
    ∀ fr, runOps fp fr (ops ++ more) = runOps fp (runOps fp fr ops) more := by
  induction ops with
  | nil => intro fr; rfl
  | cons op rest ih =>
    intro fr
    obtain ⟨s, c⟩ := op
    exact ih _

lemma runResults_length (fp : String → Nat) (ops : List (String × Schema)) :
    ∀ fr, (runResults fp fr ops).length = ops.length := by
  induction ops with
  | nil => intro fr; rfl
  | cons op rest ih =>
    intro fr
    obtain ⟨s, c⟩ := op
    simp [runResults, ih]

/-! ## The invariant holds in every reachable state -/

lemma inv_init (fp : String → Nat) : RegInv fp initRegistry := by
  constructor
  · simp [initRegistry]
  · intro s
    simp [initRegistry, fakeRegistry.findBySubject, findBySubjectL]
  · intro k v hk
    simp [initRegistry] at hk
  · intro k₁ k₂ v h1 h2
    simp [initRegistry] at h1
  · intro ss hss
    simp [initRegistry] at hss

lemma inv_step (fp : String → Nat) (fr : fakeRegistry) (s : String)
    (c : Schema) (r : SubjectSchema) (fr' : fakeRegistry)
    (h : fr.CreateSchema fp s c = (r, fr')) (hInv : RegInv fp fr) :
    RegInv fp fr' := by
  rcases createSchema_cases fp fr s c r fr' h with
    ⟨hfr, _, _, _⟩ | ⟨hsub, hsch, hver, hschemas, hcache, hseq⟩
  · rw [hfr]; exact hInv
  · have hfs : ∀ t, fr'.findBySubject t =
        fr.findBySubject t ++ (if r.subject = t then [r] else []) := by
      intro t
      unfold fakeRegistry.findBySubject
      rw [hschemas, findBySubjectL_append, findBySubjectL_singleton]
    constructor
    · rcases hseq with ⟨_, he⟩ | ⟨_, _, he⟩
      · rw [he]; exact hInv.seq_nonneg
      · rw [he]; have := hInv.seq_nonneg; omega
    · intro t
      by_cases ht : r.subject = t
      · have hts : fr.findBySubject s = fr.findBySubject t := by
          rw [← ht, hsub]
        rw [hfs t, if_pos ht]
        have hlen : (fr.findBySubject t ++ [r]).length =
            (fr.findBySubject t).length + 1 := by simp
        rw [List.map_append, hInv.versions_ok t, hlen, List.range'_concat,
          List.map_append]
        congr 1
        simp only [List.map_cons, List.map_nil]
        congr 1
        rw [hver, hts, Int.ofNat_eq_coe]
        omega
      · rw [hfs t, if_neg ht]
        simp only [List.append_nil]
        exact hInv.versions_ok t
    · intro k v hk
      rw [hcache k] at hk
      by_cases hkc : k = fp c.schema
      · rw [if_pos hkc] at hk
        injection hk with hv
        subst hv
        rcases hseq with ⟨hhit, he⟩ | ⟨hmiss, hid, he⟩
        · rw [he]; exact hInv.cache_bounds _ _ hhit
        · rw [hid, he]
          have := hInv.seq_nonneg
          omega
      · rw [if_neg hkc] at hk
        have hb := hInv.cache_bounds _ _ hk
        rcases hseq with ⟨_, he⟩ | ⟨_, _, he⟩ <;> rw [he]
        · exact hb
        · omega
    · intro k₁ k₂ v h1 h2
      rw [hcache k₁] at h1
      rw [hcache k₂] at h2
      by_cases h1c : k₁ = fp c.schema <;> by_cases h2c : k₂ = fp c.schema
      · rw [h1c, h2c]
      · rw [if_pos h1c] at h1
        rw [if_neg h2c] at h2
        injection h1 with hv
        subst hv
        rcases hseq with ⟨hhit, _⟩ | ⟨hmiss, hid, _⟩
        · exact hInv.cache_inj _ _ _ (by rw [h1c]; exact hhit) h2
        · have hb := hInv.cache_bounds _ _ h2
          omega
      · rw [if_neg h1c] at h1
        rw [if_pos h2c] at h2
        injection h2 with hv
        subst hv
        rcases hseq with ⟨hhit, _⟩ | ⟨hmiss, hid, _⟩
        · exact hInv.cache_inj _ _ _ h1 (by rw [h2c]; exact hhit)
        · have hb := hInv.cache_bounds _ _ h1
          omega
      · rw [if_neg h1c] at h1
        rw [if_neg h2c] at h2
        exact hInv.cache_inj _ _ _ h1 h2
    · intro ss hss
      rw [hschemas] at hss
      rcases List.mem_append.mp hss with hm | hm
      · have hold := hInv.rec_cache ss hm
        rw [hcache]
        by_cases hkc : fp ss.schema.schema = fp c.schema
        · rw [if_pos hkc]
          rcases hseq with ⟨hhit, _⟩ | ⟨hmiss, _, _⟩
          · rw [hkc, hhit] at hold
            injection hold with hv
            rw [hv]
          · rw [hkc, hmiss] at hold
            cases hold
        · rw [if_neg hkc]
          exact hold
      · have hssr : ss = r := by simpa using hm
        subst hssr
        rw [hcache, hsch, if_pos rfl]

lemma inv_runOps (fp : String → Nat) (ops : List (String × Schema)) :
    ∀ fr, RegInv fp fr → RegInv fp (runOps fp fr ops) := by
  induction ops with
  | nil => intro fr h; exact h
  | cons op rest ih =>
    intro fr h
    obtain ⟨s, c⟩ := op
    exact ih _ (inv_step fp fr s c _ _ rfl h)

/-- After a run, the content fingerprint of the i-th registration maps to
the id of the i-th returned record. -/
lemma runResults_cache (fp : String → Nat) (ops : List (String × Schema)) :
    ∀ (fr : fakeRegistry) (i : Nat) (hi : i < ops.length)
      (hi' : i < (runResults fp fr ops).length),
      (runOps fp fr ops).fingerprintIDCache
          (fp ((ops.get ⟨i, hi⟩).2).schema) =
        some ((runResults fp fr ops).get ⟨i, hi'⟩).id := by
  induction ops with
  | nil =>
    intro fr i hi hi'
    exact absurd hi (by simp)
  | cons op rest ih =>
    intro fr i hi hi'
    obtain ⟨s, c⟩ := op
    cases i with
    | zero =>
      show (runOps fp (fr.CreateSchema fp s c).2 rest).fingerprintIDCache
          (fp c.schema) = some ((fr.CreateSchema fp s c).1).id
      exact runOps_cache_mono fp rest _ _ _
        (createSchema_cache_self fp fr s c _ _ rfl)
    | succ n =>
      exact ih _ n (Nat.lt_of_succ_lt_succ hi) (Nat.lt_of_succ_lt_succ hi')

/-! ## Claim theorems: local code-path facts -/

/-- **C1** Idempotent re-registration: whenever the store's fingerprint
cache maps the content's fingerprint to an id for which a record with the
requested subject already exists, `CreateSchema` returns that existing
record and leaves the store state (in particular the record count for the
subject) unchanged. -/
theorem c1_idempotent_reregistration (fp : String → Nat) (fr : fakeRegistry)
    (s : String) (c : Schema) (id : Int) (ss : SubjectSchema)
    (hcache : fr.fingerprintIDCache (fp c.schema) = some id)
    (hfind : fr.findBySubjectID s id = some ss) :
    fr.CreateSchema fp s c = (ss, fr) ∧
    ((fr.CreateSchema fp s c).2.findBySubject s).length =
      (fr.findBySubject s).length := by
  have h : fr.CreateSchema fp s c = (ss, fr) := by
    simp only [fakeRegistry.CreateSchema, hcache, hfind]
  exact ⟨h, by rw [h]⟩

/-- **C1 witness**: registering content of length 1 under subject `"s"`
twice returns the original record and does not grow the subject's record
list. -/
theorem c1_witness :
    (runOps String.length initRegistry [("s", ⟨"x", 0⟩)]).CreateSchema
        String.length "s" ⟨"x", 0⟩ =
      (⟨"s", 1, 1, ⟨"x", 0⟩⟩,
        runOps String.length initRegistry [("s", ⟨"x", 0⟩)]) :=
  (c1_idempotent_reregistration String.length
    (runOps String.length initRegistry [("s", ⟨"x", 0⟩)]) "s" ⟨"x", 0⟩ 1
    ⟨"s", 1, 1, ⟨"x", 0⟩⟩ (by decide) (by decide)).1

/-- **C2** Cross-subject id reuse: from the initial store, registering
byte-identical content under subject `A` and then under a distinct subject
`B` yields the same id for both registrations, and version 1 for each
subject independently. -/
theorem c2_cross_subject_id_reuse (fp : String → Nat) (A B : String)
    (c : Schema) (hAB : A ≠ B) :
    ((initRegistry.CreateSchema fp A c).1.id =
        (((initRegistry.CreateSchema fp A c).2).CreateSchema fp B c).1.id) ∧
    (initRegistry.CreateSchema fp A c).1.version = 1 ∧
    (((initRegistry.CreateSchema fp A c).2).CreateSchema fp B c).1.version = 1 := by
  simp [fakeRegistry.CreateSchema, initRegistry, fakeRegistry.nextVersion,
    fakeRegistry.findBySubject, fakeRegistry.findBySubjectID,
    fakeRegistry.nextID, findBySubjectL, findBySubjectIDL, hAB]

/-- **C2 witness**: subjects `"a"` and `"b"`, identical content. -/
theorem c2_witness :
    ((initRegistry.CreateSchema String.length "a" ⟨"x", 0⟩).1.id =
        (((initRegistry.CreateSchema String.length "a" ⟨"x", 0⟩).2).CreateSchema
          String.length "b" ⟨"x", 0⟩).1.id) ∧
    (initRegistry.CreateSchema String.length "a" ⟨"x", 0⟩).1.version = 1 ∧
    (((initRegistry.CreateSchema String.length "a" ⟨"x", 0⟩).2).CreateSchema
      String.length "b" ⟨"x", 0⟩).1.version = 1 :=
  c2_cross_subject_id_reuse String.length "a" "b" ⟨"x", 0⟩ (by decide)

/-- **C6 counterexample**: on the empty store, the lookup for id 7 matches
nothing and the wire response of `GET /schemas/ids/7/versions` is a
success whose body is JSON `null` — not the JSON empty array the claim
asserts (`findAllByID` returns the nil slice and `json.Marshal` encodes a
nil slice as `null`). -/
theorem c6_counterexample :
    fakeServer.subjectVersionsByID initRegistry "7" =
      { status := 200, body := RespBody.nullBody } ∧
    fakeServer.subjectVersionsByID initRegistry "7" ≠
      { status := 200, body := RespBody.recordsBody ([] : List SubjectSchema) } := by
  decide

/-- **C6 (as amended)** All-versions-by-id lookup: `findAllByID` returns
exactly the records whose id equals the argument, across all subjects, in
insertion order (a filter of the insertion-ordered record list); the
handler for `GET /schemas/ids/{id}/versions` answers any well-formed
numeric token with status 200 and the marshalled record slice — never an
error — and when no record matches, the body is JSON `null` (Go marshals
the nil slice as `null`, not as an empty array). -/
theorem c6_all_versions_by_id (fr : fakeRegistry) (id : Int) :
    fr.findAllByID id = fr.schemas.filter (fun ss => ss.id == id) ∧
    ∀ idTok, atoi idTok = some id →
      fakeServer.subjectVersionsByID fr idTok =
        { status := 200,
          body := marshalRecords (fr.schemas.filter (fun ss => ss.id == id)) } ∧
      (fr.findAllByID id = [] →
        fakeServer.subjectVersionsByID fr idTok =
          { status := 200, body := RespBody.nullBody }) := by
  have hfilter : fr.findAllByID id = fr.schemas.filter (fun ss => ss.id == id) :=
    findAllByIDL_eq_filter id fr.schemas
  refine ⟨hfilter, fun idTok htok => ⟨?_, fun hempty => ?_⟩⟩
  · simp only [fakeServer.subjectVersionsByID, htok,
      fakeRegistry.SubjectVersionsByID, hfilter]
  · rw [hfilter] at hempty
    simp only [fakeServer.subjectVersionsByID, htok,
      fakeRegistry.SubjectVersionsByID, hfilter, hempty, marshalRecords,
      List.isEmpty_nil, if_true]

/-- **C6 witness**: on the store holding one record with id 1, the lookup
for id 7 matches nothing and the wire response is a success whose body is
JSON `null`, while the lookup for id 1 returns the one-record array. -/
theorem c6_witness :
    fakeServer.subjectVersionsByID
        (runOps String.length initRegistry [("s", ⟨"x", 0⟩)]) "7" =
      { status := 200, body := RespBody.nullBody } ∧
    fakeServer.subjectVersionsByID
        (runOps String.length initRegistry [("s", ⟨"x", 0⟩)]) "1" =
      { status := 200,
        body := RespBody.recordsBody [⟨"s", 1, 1, ⟨"x", 0⟩⟩] } := by
  constructor
  · exact ((c6_all_versions_by_id
      (runOps String.length initRegistry [("s", ⟨"x", 0⟩)]) 7).2 "7"
      (by decide)).2 (by decide)
  · rw [((c6_all_versions_by_id
      (runOps String.length initRegistry [("s", ⟨"x", 0⟩)]) 1).2 "1"
      (by decide)).1]
    decide

/-- **C7** First-match-wins for id lookup: `findOneByID` returns the schema
of the first record in insertion order whose id matches (`List.find?` over
the insertion-ordered list), and when no record matches, the handler for
`GET /schemas/ids/{id}` reports the structured 404 not-found error (the
store lookup itself is a pure reader and signals absence as `none`). -/
theorem c7_first_match_wins (fr : fakeRegistry) (id : Int) :
    fr.findOneByID id = (fr.schemas.find? (fun ss => ss.id == id)).map (·.schema) ∧
    ∀ idTok, atoi idTok = some id → fr.schemas.find? (fun ss => ss.id == id) = none →
      fakeServer.schemaByID fr idTok =
        { status := 404,
          body := RespBody.errorBody errorCodeSchemaNotFound "schema not found" } := by
  have hfind : fr.findOneByID id =
      (fr.schemas.find? (fun ss => ss.id == id)).map (·.schema) :=
    findOneByIDL_eq_find? id fr.schemas
  refine ⟨hfind, fun idTok htok hnone => ?_⟩
  simp only [fakeServer.schemaByID, htok, fakeRegistry.SchemaByID, hfind, hnone,
    Option.map_none', fakeServer.errorWithCode]

/-- **C8** Wire error mapping: a non-numeric version segment yields
500/50001; a subject+version lookup with no matching record yields
404/40401; a non-numeric id segment yields 500/50001; an id lookup with no
matching record yields 404/40403; an undecodable registration body yields
500/50001; and every non-success response of the lookup handlers carries
the error-object body (error_code plus message). -/
theorem c8_wire_error_mapping (fp : String → Nat) (fr : fakeRegistry)
    (subjectTok versionTok idTok : String) :
    (atoi versionTok = none →
      fakeServer.schemaBySubjectVersion fr subjectTok versionTok =
        { status := 500, body := RespBody.errorBody 50001 "invalid schema version" }) ∧
    (∀ v, atoi versionTok = some v → fr.SchemaBySubjectVersion subjectTok v = none →
      fakeServer.schemaBySubjectVersion fr subjectTok versionTok =
        { status := 404, body := RespBody.errorBody 40401 "subject not found" }) ∧
    (atoi idTok = none →
      fakeServer.schemaByID fr idTok =
        { status := 500, body := RespBody.errorBody 50001 "invalid schema ID" }) ∧
    (∀ i, atoi idTok = some i → fr.SchemaByID i = none →
      fakeServer.schemaByID fr idTok =
        { status := 404, body := RespBody.errorBody 40403 "schema not found" }) ∧
    ((fakeServer.createSchema fp fr subjectTok none).1 =
      { status := 500, body := RespBody.errorBody 50001 "decode error" }) ∧
    ((fakeServer.schemaBySubjectVersion fr subjectTok versionTok).status ≠ 200 →
      ∃ code msg, (fakeServer.schemaBySubjectVersion fr subjectTok versionTok).body =
        RespBody.errorBody code msg) ∧
    ((fakeServer.schemaByID fr idTok).status ≠ 200 →
      ∃ code msg, (fakeServer.schemaByID fr idTok).body = RespBody.errorBody code msg) := by
  refine ⟨?_, ?_, ?_, ?_, ?_, ?_, ?_⟩
  · intro h
    simp [fakeServer.schemaBySubjectVersion, h, fakeServer.errorResp,
      fakeServer.errorWithCode]
  · intro v hv hs
    simp [fakeServer.schemaBySubjectVersion, hv, hs, fakeServer.errorWithCode,
      errorCodeSubjectNotFound]
  · intro h
    simp [fakeServer.schemaByID, h, fakeServer.errorResp, fakeServer.errorWithCode]
  · intro i hi hs
    simp [fakeServer.schemaByID, hi, hs, fakeServer.errorWithCode,
      errorCodeSchemaNotFound]
  · rfl
  · intro hst
    cases hv : atoi versionTok with
    | none =>
      simp [fakeServer.schemaBySubjectVersion, hv, fakeServer.errorResp,
        fakeServer.errorWithCode]
    | some v =>
      cases hs : fr.SchemaBySubjectVersion subjectTok v with
      | none =>
        simp [fakeServer.schemaBySubjectVersion, hv, hs, fakeServer.errorWithCode]
      | some ss =>
        simp [fakeServer.schemaBySubjectVersion, hv, hs] at hst
  · intro hst
    cases hi : atoi idTok with
    | none =>
      simp [fakeServer.schemaByID, hi, fakeServer.errorResp,
        fakeServer.errorWithCode]
    | some i =>
      cases hs : fr.SchemaByID i with
      | none => simp [fakeServer.schemaByID, hi, hs, fakeServer.errorWithCode]
      | some s => simp [fakeServer.schemaByID, hi, hs] at hst

/-- **C8 witness**: concrete malformed and missing-resource requests on the
initial store produce exactly the specified statuses and error codes. -/
theorem c8_witness :
    fakeServer.schemaBySubjectVersion initRegistry "s" "x" =
      { status := 500, body := RespBody.errorBody 50001 "invalid schema version" } ∧
    fakeServer.schemaBySubjectVersion initRegistry "s" "1" =
      { status := 404, body := RespBody.errorBody 40401 "subject not found" } ∧
    fakeServer.schemaByID initRegistry "y" =
      { status := 500, body := RespBody.errorBody 50001 "invalid schema ID" } ∧
    fakeServer.schemaByID initRegistry "2" =
      { status := 404, body := RespBody.errorBody 40403 "schema not found" } ∧
    (fakeServer.createSchema String.length initRegistry "s" none).1 =
      { status := 500, body := RespBody.errorBody 50001 "decode error" } :=
  ⟨(c8_wire_error_mapping String.length initRegistry "s" "x" "y").1 (by decide),
    (c8_wire_error_mapping String.length initRegistry "s" "1" "y").2.1 1
      (by decide) (by decide),
    (c8_wire_error_mapping String.length initRegistry "s" "x" "y").2.2.1 (by decide),
    (c8_wire_error_mapping String.length initRegistry "s" "x" "2").2.2.2.1 2
      (by decide) (by decide),
    (c8_wire_error_mapping String.length initRegistry "s" "x" "y").2.2.2.2.1⟩

/-- **C10** Numeric out-of-domain segments are not malformed input: any
path segment that parses as an integer (including zero and negatives) but
matches no record produces the structured 404 not-found response
(40403 for id lookups, 40401 for subject+version lookups), never 50001,
which is reserved for segments that fail integer parsing. -/
theorem c10_numeric_out_of_domain (fr : fakeRegistry) (tok : String) (n : Int)
    (htok : atoi tok = some n) :
    (fr.SchemaByID n = none →
      fakeServer.schemaByID fr tok =
        { status := 404,
          body := RespBody.errorBody errorCodeSchemaNotFound "schema not found" }) ∧
    (∀ subjectTok, fr.SchemaBySubjectVersion subjectTok n = none →
      fakeServer.schemaBySubjectVersion fr subjectTok tok =
        { status := 404,
          body := RespBody.errorBody errorCodeSubjectNotFound "subject not found" }) ∧
    (∀ badTok, atoi badTok = none →
      fakeServer.schemaByID fr badTok =
        { status := 500, body := RespBody.errorBody 50001 "invalid schema ID" }) := by
  refine ⟨fun hs => ?_, fun subjectTok hs => ?_, fun badTok hbad => ?_⟩
  · simp [fakeServer.schemaByID, htok, hs, fakeServer.errorWithCode]
  · simp [fakeServer.schemaBySubjectVersion, htok, hs, fakeServer.errorWithCode]
  · simp [fakeServer.schemaByID, hbad, fakeServer.errorResp, fakeServer.errorWithCode]

/-- **C10 witness**: an id path segment of `-5` and a version path segment
of `0` on the initial store both produce the structured 404 responses, not
50001. -/
theorem c10_witness :
    fakeServer.schemaByID initRegistry "-5" =
      { status := 404,
        body := RespBody.errorBody errorCodeSchemaNotFound "schema not found" } ∧
    fakeServer.schemaBySubjectVersion initRegistry "s" "0" =
      { status := 404,
        body := RespBody.errorBody errorCodeSubjectNotFound "subject not found" } :=
  ⟨(c10_numeric_out_of_domain initRegistry "-5" (-5) (by decide)).1 (by decide),
    (c10_numeric_out_of_domain initRegistry "0" 0 (by decide)).2.1 "s" (by decide)⟩

/-- **C7 witness**: with id 1 shared by subjects `"a"` (registered first)
and `"b"`, the id lookup returns the first-registered record's schema; and
the lookup for the unused id 9 yields the 404/40403 response. -/
theorem c7_witness :
    (runOps String.length initRegistry
        [("a", ⟨"x", 0⟩), ("b", ⟨"x", 0⟩)]).findOneByID 1 =
      some ⟨"x", 0⟩ ∧
    fakeServer.schemaByID
        (runOps String.length initRegistry [("a", ⟨"x", 0⟩), ("b", ⟨"x", 0⟩)]) "9" =
      { status := 404,
        body := RespBody.errorBody errorCodeSchemaNotFound "schema not found" } :=
  ⟨by decide,
    (c7_first_match_wins
      (runOps String.length initRegistry [("a", ⟨"x", 0⟩), ("b", ⟨"x", 0⟩)]) 9).2
      "9" (by decide) (by decide)⟩

/-- **C4** Id uniqueness and stability: provided the fingerprint function
is injective on the registered contents, two registrations with different
schema content never return the same id; and a fingerprint-to-id cache
entry, once fixed by the first registration of a content, survives every
later operation unchanged. -/
theorem c4_id_uniqueness_and_stability (fp : String → Nat)
    (ops : List (String × Schema)) (i j : Nat)
    (hi : i < ops.length) (hj : j < ops.length)
    (hi' : i < (runResults fp initRegistry ops).length)
    (hj' : j < (runResults fp initRegistry ops).length)
    (hinj : ∀ x ∈ ops.map (fun op => op.2.schema),
            ∀ y ∈ ops.map (fun op => op.2.schema), fp x = fp y → x = y)
    (hne : ((ops.get ⟨i, hi⟩).2).schema ≠ ((ops.get ⟨j, hj⟩).2).schema) :
    ((runResults fp initRegistry ops).get ⟨i, hi'⟩).id ≠
      ((runResults fp initRegistry ops).get ⟨j, hj'⟩).id ∧
    ∀ (more : List (String × Schema)) (k : Nat) (v : Int),
      (runOps fp initRegistry ops).fingerprintIDCache k = some v →
      (runOps fp initRegistry (ops ++ more)).fingerprintIDCache k = some v := by
  constructor
  · intro heq
    have h1 := runResults_cache fp ops initRegistry i hi hi'
    have h2 := runResults_cache fp ops initRegistry j hj hj'
    rw [heq] at h1
    have hfp := (inv_runOps fp ops initRegistry (inv_init fp)).cache_inj _ _ _ h1 h2
    exact hne (hinj _ (List.mem_map_of_mem _ (ops.get_mem i hi))
      _ (List.mem_map_of_mem _ (ops.get_mem j hj)) hfp)
  · intro more k v hk
    rw [runOps_append]
    exact runOps_cache_mono fp more _ k v hk

/-- **C4 witness**: registering `"x"` then `"yy"` (distinct contents,
injective fingerprints) yields ids 1 and 2, and the cache entry for the
first content survives a further registration. -/
theorem c4_witness :
    ((runResults String.length initRegistry
        [("a", ⟨"x", 0⟩), ("b", ⟨"yy", 0⟩)]).get ⟨0, by decide⟩).id ≠
      ((runResults String.length initRegistry
        [("a", ⟨"x", 0⟩), ("b", ⟨"yy", 0⟩)]).get ⟨1, by decide⟩).id ∧
    (runOps String.length initRegistry
        ([("a", ⟨"x", 0⟩), ("b", ⟨"yy", 0⟩)] ++ [("c", ⟨"zzz", 0⟩)])).fingerprintIDCache
      1 = some 1 :=
  ⟨(c4_id_uniqueness_and_stability String.length
      [("a", ⟨"x", 0⟩), ("b", ⟨"yy", 0⟩)] 0 1 (by decide) (by decide)
      (by decide) (by decide) (by decide) (by decide)).1,
    (c4_id_uniqueness_and_stability String.length
      [("a", ⟨"x", 0⟩), ("b", ⟨"yy", 0⟩)] 0 1 (by decide) (by decide)
      (by decide) (by decide) (by decide) (by decide)).2
      [("c", ⟨"zzz", 0⟩)] 1 1 (by decide)⟩

/-- Growth of a subject's record list under a run: when every registration
for subject `s` in `ops` carries a content fingerprint that is new for `s`
(fresh relative to the starting state and pairwise distinct within `ops`),
each such registration appends exactly one record for `s`. -/
lemma length_findBySubject_runOps (fp : String → Nat) (s : String) :
    ∀ (ops : List (String × Schema)) (fr : fakeRegistry), RegInv fp fr →
      (∀ op ∈ ops, op.1 = s → ∀ ss ∈ fr.schemas, ss.subject = s →
        fp ss.schema.schema ≠ fp op.2.schema) →
      ((ops.filter (fun op => op.1 == s)).map (fun op => fp op.2.schema)).Nodup →
      ((runOps fp fr ops).findBySubject s).length =
        (fr.findBySubject s).length +
          (ops.filter (fun op => op.1 == s)).length := by
  intro ops
  induction ops with
  | nil =>
    intro fr _ _ _
    simp [runOps]
  | cons op rest ih =>
    intro fr hInv hnew hnodup
    obtain ⟨t, c⟩ := op
    have hpair : fr.CreateSchema fp t c =
        ((fr.CreateSchema fp t c).1, (fr.CreateSchema fp t c).2) := rfl
    have hInv1 := inv_step fp fr t c _ _ hpair hInv
    have hstep : runOps fp fr ((t, c) :: rest) =
        runOps fp (fakeRegistry.CreateSchema fp fr t c).2 rest := rfl
    rw [hstep]
    by_cases hts : t = s
    · rcases createSchema_cases fp fr t c _ _ hpair with
        ⟨hfr, hmem, hsubj, hhit⟩ | ⟨hsub, hsch, hver, hschemas, hcache, hseq⟩
      · exfalso
        have hrc := hInv.rec_cache _ hmem
        have hkey := hInv.cache_inj _ _ _ hrc hhit
        exact hnew (t, c) (List.mem_cons_self _ _) hts _ hmem
          (by rw [hsubj, hts]) hkey
      · have hfs : (fakeRegistry.CreateSchema fp fr t c).2.findBySubject s =
            fr.findBySubject s ++ [(fakeRegistry.CreateSchema fp fr t c).1] := by
          unfold fakeRegistry.findBySubject
          rw [hschemas, findBySubjectL_append, findBySubjectL_singleton,
            if_pos (by rw [hsub]; exact hts)]
        have hfilter : (((t, c) :: rest).filter (fun op => op.1 == s)) =
            (t, c) :: rest.filter (fun op => op.1 == s) := by
          simp [List.filter_cons, hts]
        rw [hfilter] at hnodup
        simp only [List.map_cons, List.nodup_cons] at hnodup
        have hnew1 : ∀ op ∈ rest, op.1 = s →
            ∀ ss ∈ (fakeRegistry.CreateSchema fp fr t c).2.schemas,
              ss.subject = s → fp ss.schema.schema ≠ fp op.2.schema := by
          intro op hop hops ss hss hsss
          rw [hschemas] at hss
          rcases List.mem_append.mp hss with hm | hm
          · exact hnew op (List.mem_cons_of_mem _ hop) hops ss hm hsss
          · have hssr : ss = (fakeRegistry.CreateSchema fp fr t c).1 := by
              simpa using hm
            subst hssr
            rw [hsch]
            intro hcontra
            apply hnodup.1
            rw [hcontra]
            exact List.mem_map_of_mem _
              (List.mem_filter.mpr ⟨hop, by simp [hops]⟩)
        have hrec := ih _ hInv1 hnew1 hnodup.2
        rw [hrec, hfs, hfilter]
        simp only [List.length_append, List.length_cons, List.length_nil]
        omega
    · have hkeep : (fakeRegistry.CreateSchema fp fr t c).2.findBySubject s =
          fr.findBySubject s := by
        rcases createSchema_cases fp fr t c _ _ hpair with
          ⟨hfr, _, _, _⟩ | ⟨hsub, _, _, hschemas, _, _⟩
        · rw [hfr]
        · unfold fakeRegistry.findBySubject
          rw [hschemas, findBySubjectL_append, findBySubjectL_singleton,
            if_neg (by rw [hsub]; exact hts), List.append_nil]
      have hsubset : ∀ ss ∈ (fakeRegistry.CreateSchema fp fr t c).2.schemas,
          ss.subject = s → ss ∈ fr.schemas := by
        rcases createSchema_cases fp fr t c _ _ hpair with
          ⟨hfr, _, _, _⟩ | ⟨hsub, _, _, hschemas, _, _⟩
        · rw [hfr]; exact fun ss hss _ => hss
        · intro ss hss hsss
          rw [hschemas] at hss
          rcases List.mem_append.mp hss with hm | hm
          · exact hm
          · have hssr : ss = (fakeRegistry.CreateSchema fp fr t c).1 := by
              simpa using hm
            rw [hssr, hsub] at hsss
            exact absurd hsss hts
      have hfilter : (((t, c) :: rest).filter (fun op => op.1 == s)) =
          rest.filter (fun op => op.1 == s) := by
        simp [List.filter_cons, hts]
      have hnew1 : ∀ op ∈ rest, op.1 = s →
          ∀ ss ∈ (fakeRegistry.CreateSchema fp fr t c).2.schemas,
            ss.subject = s → fp ss.schema.schema ≠ fp op.2.schema :=
        fun op hop hops ss hss hsss =>
          hnew op (List.mem_cons_of_mem _ hop) hops ss (hsubset ss hss hsss) hsss
      rw [hfilter] at hnodup
      have hrec := ih _ hInv1 hnew1 hnodup
      rw [hrec, hkeep, hfilter]

/-- **C3** Per-subject version monotonicity: for a fixed subject `s`, after
any sequence of registrations (arbitrarily interleaved with other
subjects) whose registrations for `s` have pairwise-distinct content, on
which the fingerprint function is injective, the records stored for `s`
carry exactly the versions 1..N in insertion order, where N is the number
of registrations for `s` — no gaps, no repeats, no reassignment. -/
theorem c3_version_monotonicity (fp : String → Nat)
    (ops : List (String × Schema)) (s : String)
    (hdist : ((ops.filter (fun op => op.1 == s)).map
      (fun op => op.2.schema)).Nodup)
    (hinj : ∀ x ∈ (ops.filter (fun op => op.1 == s)).map (fun op => op.2.schema),
            ∀ y ∈ (ops.filter (fun op => op.1 == s)).map (fun op => op.2.schema),
            fp x = fp y → x = y) :
    ((runOps fp initRegistry ops).findBySubject s).map (fun ss => ss.version) =
      (List.range' 1 ((ops.filter (fun op => op.1 == s)).length)).map
        Int.ofNat := by
  have hnodup : ((ops.filter (fun op => op.1 == s)).map
      (fun op => fp op.2.schema)).Nodup := by
    have hmm : (ops.filter (fun op => op.1 == s)).map (fun op => fp op.2.schema) =
        ((ops.filter (fun op => op.1 == s)).map (fun op => op.2.schema)).map fp := by
      rw [List.map_map]
      rfl
    rw [hmm]
    exact hdist.map_on hinj
  have hlen := length_findBySubject_runOps fp s ops initRegistry (inv_init fp)
    (by intro op hop hops ss hss; simp [initRegistry] at hss) hnodup
  have hvers := (inv_runOps fp ops initRegistry (inv_init fp)).versions_ok s
  rw [hvers, hlen]
  simp [initRegistry, fakeRegistry.findBySubject, findBySubjectL]

/-- **C3 witness**: registrations for subject `"s"` with contents `"x"`
and `"zzz"`, interleaved with one for subject `"t"`, store versions
`[1, 2]` for `"s"`. -/
theorem c3_witness :
    ((runOps String.length initRegistry
        [("s", ⟨"x", 0⟩), ("t", ⟨"yy", 0⟩), ("s", ⟨"zzz", 0⟩)]).findBySubject
        "s").map (fun ss => ss.version) =
      (List.range' 1 (([("s", (⟨"x", 0⟩ : Schema)), ("t", ⟨"yy", 0⟩),
        ("s", ⟨"zzz", 0⟩)].filter (fun op => op.1 == "s")).length)).map
        Int.ofNat :=
  c3_version_monotonicity String.length
    [("s", ⟨"x", 0⟩), ("t", ⟨"yy", 0⟩), ("s", ⟨"zzz", 0⟩)] "s"
    (by decide) (by decide)

/-- In an invariant-satisfying state, version numbers within one subject
are pairwise distinct. -/
lemma versions_nodup (fp : String → Nat) (fr : fakeRegistry)
    (hInv : RegInv fp fr) (s : String) :
    ((fr.findBySubject s).map (fun ss => ss.version)).Nodup := by
  rw [hInv.versions_ok s]
  apply List.Nodup.map _ (List.nodup_range' 1 _)
  intro a b hab
  exact Int.ofNat.inj hab

/-- **C5** Lookup round-trip: for every record returned by `CreateSchema`
from an invariant-satisfying state (the fingerprint function being
injective on the contents involved), looking the record up by its subject
and version returns it unchanged, and looking it up by id returns a schema
with the same content. -/
theorem c5_lookup_round_trip (fp : String → Nat) (fr : fakeRegistry)
    (s : String) (c : Schema) (r : SubjectSchema) (fr' : fakeRegistry)
    (h : fr.CreateSchema fp s c = (r, fr')) (hInv : RegInv fp fr)
    (hinj : ∀ x ∈ c.schema :: fr.schemas.map (fun ss => ss.schema.schema),
            ∀ y ∈ c.schema :: fr.schemas.map (fun ss => ss.schema.schema),
            fp x = fp y → x = y) :
    fr'.findBySubjectVersion r.subject r.version = some r ∧
    ∃ sch, fr'.findOneByID r.id = some sch ∧ sch.schema = r.schema.schema := by
  have hInv' := inv_step fp fr s c r fr' h hInv
  have hmem : r ∈ fr'.schemas := by
    rcases createSchema_cases fp fr s c r fr' h with
      ⟨hfr, hm, _, _⟩ | ⟨_, _, _, hschemas, _, _⟩
    · rw [hfr]; exact hm
    · rw [hschemas]
      exact List.mem_append.mpr (Or.inr (List.mem_singleton.mpr rfl))
  have hcontents : ∀ ss ∈ fr'.schemas,
      ss.schema.schema ∈ c.schema :: fr.schemas.map (fun ss => ss.schema.schema) := by
    rcases createSchema_cases fp fr s c r fr' h with
      ⟨hfr, _, _, _⟩ | ⟨_, hsch, _, hschemas, _, _⟩
    · rw [hfr]
      intro ss hss
      exact List.mem_cons_of_mem _ (List.mem_map_of_mem _ hss)
    · rw [hschemas]
      intro ss hss
      rcases List.mem_append.mp hss with hm | hm
      · exact List.mem_cons_of_mem _ (List.mem_map_of_mem _ hm)
      · have hssr : ss = r := by simpa using hm
        rw [hssr, hsch]
        exact List.mem_cons_self _ _
  constructor
  · have huniq : ∀ x ∈ fr'.schemas, x.subject = r.subject →
        x.version = r.version → x = r := by
      intro x hx hxs hxv
      have hx' : x ∈ fr'.findBySubject r.subject :=
        (mem_findBySubjectL _ _ _).mpr ⟨hx, hxs⟩
      have hr' : r ∈ fr'.findBySubject r.subject :=
        (mem_findBySubjectL _ _ _).mpr ⟨hmem, rfl⟩
      exact List.inj_on_of_nodup_map
        (versions_nodup fp fr' hInv' r.subject) hx' hr' hxv
    exact findBySubjectVersionL_eq_some r.subject r.version fr'.schemas r
      hmem rfl rfl huniq
  · obtain ⟨ss₀, h1, h2, h3⟩ := findOneByIDL_of_mem r.id fr'.schemas r hmem rfl
    refine ⟨ss₀.schema, h3, ?_⟩
    have hc1 := hInv'.rec_cache _ h1
    have hc2 := hInv'.rec_cache _ hmem
    rw [h2] at hc1
    have hkey := hInv'.cache_inj _ _ _ hc1 hc2
    exact hinj _ (hcontents _ h1) _ (hcontents _ hmem) hkey

/-- **C5 witness**: the record returned for registering content `"x"`
under subject `"b"` (after an earlier registration of the same content
under `"a"`) is found again by subject+version, and the id lookup returns
a schema with its content. -/
theorem c5_witness :
    ((runOps String.length initRegistry [("a", ⟨"x", 0⟩)]).CreateSchema
        String.length "b" ⟨"x", 0⟩).2.findBySubjectVersion
      (((runOps String.length initRegistry [("a", ⟨"x", 0⟩)]).CreateSchema
        String.length "b" ⟨"x", 0⟩).1.subject)
      (((runOps String.length initRegistry [("a", ⟨"x", 0⟩)]).CreateSchema
        String.length "b" ⟨"x", 0⟩).1.version) =
      some ((runOps String.length initRegistry [("a", ⟨"x", 0⟩)]).CreateSchema
        String.length "b" ⟨"x", 0⟩).1 ∧
    ∃ sch, ((runOps String.length initRegistry [("a", ⟨"x", 0⟩)]).CreateSchema
        String.length "b" ⟨"x", 0⟩).2.findOneByID
      (((runOps String.length initRegistry [("a", ⟨"x", 0⟩)]).CreateSchema
        String.length "b" ⟨"x", 0⟩).1.id) = some sch ∧
      sch.schema = ((runOps String.length initRegistry [("a", ⟨"x", 0⟩)]).CreateSchema
        String.length "b" ⟨"x", 0⟩).1.schema.schema :=
  c5_lookup_round_trip String.length
    (runOps String.length initRegistry [("a", ⟨"x", 0⟩)]) "b" ⟨"x", 0⟩
    ((runOps String.length initRegistry [("a", ⟨"x", 0⟩)]).CreateSchema
      String.length "b" ⟨"x", 0⟩).1
    ((runOps String.length initRegistry [("a", ⟨"x", 0⟩)]).CreateSchema
      String.length "b" ⟨"x", 0⟩).2
    rfl
    (inv_runOps String.length [("a", ⟨"x", 0⟩)] initRegistry
      (inv_init String.length))
    (by decide)
